import Mathlib

/-!
Verification of the `prettythanks` tree-formatting walker (`src/main.rs`).

The program recursively walks a directory tree, reformats every eligible
`.rs` file in place (read → parse → pretty-print → write back), accumulates
original/formatted byte totals, and collects per-file failures per directory
level while propagating structural (traversal) failures immediately.

The filesystem is shallowly embedded: the directory structure is a static
tree of entries (the program never creates, renames or deletes entries, it
only rewrites file contents), file contents live in a mutable store indexed
by inode ids (so several entries — e.g. a symlink and its target — may alias
the same content), and symbolic links to directories carry the listing they
resolve to. The external reformatter (`syn::parse_file` followed by
`prettyplease::unparse`) is an opaque parameter `fmt : String → Except
String String`, failing exactly on syntactically invalid input.
-/

/-- Decidable equality for `Except`, used to evaluate results of the model
on concrete inputs. -/
instance {ε α : Type} [DecidableEq ε] [DecidableEq α] : DecidableEq (Except ε α) := by
  intro a b
  cases a <;> cases b
  case error.error x y =>
    exact if h : x = y then .isTrue (by rw [h]) else .isFalse (by simpa using h)
  case error.ok x y => exact .isFalse (by simp)
  case ok.error x y => exact .isFalse (by simp)
  case ok.ok x y =>
    exact if h : x = y then .isTrue (by rw [h]) else .isFalse (by simpa using h)

namespace PrettyThanks

/-- On-disk contents of one inode: either valid UTF-8 text, or bytes that are
not valid UTF-8, in which case `fs::read_to_string` fails with the given
io-error text. -/
inductive FileContent where
  | text (s : String)
  | binary (err : String)
deriving DecidableEq

/-- A filesystem entry as the directory walk sees it. `file` is a regular
file, `linkFile` a symbolic link resolving to a regular file, `dir` a
directory with its listing, `linkDir` a symbolic link resolving to a
directory (carrying the resolved listing), `linkBroken` a dangling symbolic
link. File entries carry the inode id of their content in the store, so two
entries with the same id alias the same on-disk content. -/
inductive FsEntry where
  | file (nm : String) (i : Nat)
  | linkFile (nm : String) (i : Nat)
  | dir (nm : String) (es : List FsEntry)
  | linkDir (nm : String) (es : List FsEntry)
  | linkBroken (nm : String)

/-- The mutable part of the filesystem: inode contents, plus a log of the
inode ids written, in order (one event per `fs::write` performed). -/
structure St where
  store : Nat → FileContent
  writes : List Nat

/-- The name of an entry (its final path component). -/
def FsEntry.entryName : FsEntry → String
  | .file nm _ => nm
  | .linkFile nm _ => nm
  | .dir nm _ => nm
  | .linkDir nm _ => nm
  | .linkBroken nm => nm

/-- `DirEntry::file_type().is_file()`: the type of the entry itself, links
not followed. -/
def FsEntry.isFileT : FsEntry → Bool
  | .file _ _ => true
  | _ => false

/-- `DirEntry::file_type().is_symlink()`: the entry itself is a symbolic
link, regardless of what it points to. -/
def FsEntry.isSymlinkT : FsEntry → Bool
  | .linkFile _ _ => true
  | .linkDir _ _ => true
  | .linkBroken _ => true
  | _ => false

/-- `DirEntry::file_type().is_dir()`: the entry itself is a directory. -/
def FsEntry.isDirT : FsEntry → Bool
  | .dir _ _ => true
  | _ => false

/-- `Path::is_file()` — follows symbolic links: true when the path resolves
to a regular file. -/
def FsEntry.resolvesToFile : FsEntry → Bool
  | .file _ _ => true
  | .linkFile _ _ => true
  | _ => false

/-- `Path::is_dir()` — follows symbolic links: true when the path resolves
to a directory. -/
def FsEntry.resolvesToDir : FsEntry → Bool
  | .dir _ _ => true
  | .linkDir _ _ => true
  | _ => false

/-- Scan a file name backwards (the argument is the reversed character
list): the characters after the last dot, in file order, or none when there
is no dot or the only dot is the leading character of the name. -/
def extCore : List Char → Option (List Char)
  | [] => none
  | c :: rest =>
    if c = '.' then (if rest.isEmpty then none else some [])
    else
      match extCore rest with
      | none => none
      | some e => some (e ++ [c])

/-- `Utf8Path::extension()` on a single path component: the suffix after the
last dot, none when there is no dot or the only dot is the leading one
(hidden files such as `.gitignore` have no extension). -/
def extension (nm : String) : Option String :=
  (extCore nm.toList.reverse).map (fun cs => String.mk cs)

/-- The characters of the final path component, scanned from a reversed
character list: everything up to the first `/` seen from the end. -/
def lastCompCore : List Char → List Char
  | [] => []
  | c :: rest => if c = '/' then [] else c :: lastCompCore rest

/-- Extension of a full (`/`-separated) path: the extension of its final
component. -/
def pathExtension (p : String) : Option String :=
  extension (String.mk (lastCompCore p.toList.reverse).reverse)

/-- Opening an entry for reading as a file: regular files and symlinks to
files resolve to their inode; directories, symlinks to directories and
dangling symlinks make `fs::read_to_string` fail with an io error. -/
def entryReadable : FsEntry → Except String Nat
  | .file _ i => .ok i
  | .linkFile _ i => .ok i
  | .dir _ _ => .error "Is a directory (os error 21)"
  | .linkDir _ _ => .error "Is a directory (os error 21)"
  | .linkBroken _ => .error "No such file or directory (os error 2)"

/-- Listing an entry as a directory (`read_dir_utf8`): succeeds on
directories and symlinks resolving to directories, fails with an io error
otherwise. -/
def listDir : FsEntry → Except String (List FsEntry)
  | .dir _ es => .ok es
  | .linkDir _ es => .ok es
  | .file _ _ => .error "Not a directory (os error 20)"
  | .linkFile _ _ => .error "Not a directory (os error 20)"
  | .linkBroken _ => .error "No such file or directory (os error 2)"

/-- `fs::write`: replace the content of inode `i` with `t` and log the write
event. -/
def writeSt (st : St) (i : Nat) (t : String) : St :=
  ⟨fun j => if j = i then .text t else st.store j, st.writes ++ [i]⟩

/-- Model of `PrettyThanks::format_file`: read the file as UTF-8 text (read
or decode failure → read error), parse and pretty-print it with the external
reformatter (failure → parse error), write the canonical form back in place,
and return the original and formatted byte lengths. On the read- and
parse-failure branches the state is returned untouched — the write step is
never reached. -/
def format_file (fmt : String → Except String String) (path : String) (e : FsEntry)
    (st : St) : St × Except String (Nat × Nat) :=
  match entryReadable e with
  | .error err => (st, .error ("failed to read file " ++ path ++ ": " ++ err))
  | .ok i =>
    match st.store i with
    | .binary err => (st, .error ("failed to read file " ++ path ++ ": " ++ err))
    | .text original =>
      match fmt original with
      | .error err => (st, .error ("failed to parse file " ++ path ++ ": " ++ err))
      | .ok formatted =>
        (writeSt st i formatted, .ok (original.utf8ByteSize, formatted.utf8ByteSize))

/-- Rendering of the collected `(path, error)` pairs: one `error: path: err`
line per pair, joined with newlines. -/
def renderErrors (errs : List (String × String)) : String :=
  String.intercalate "\n" (errs.map (fun q => "error: " ++ q.1 ++ ": " ++ q.2))

mutual

/-- Model of `PrettyThanks::format_directory`: list the entries of `path`
(failing with an io error when it is not a directory), run the entry loop,
and wrap up: when the per-file failures collection is empty return the
accumulated totals, otherwise return a failure rendering all collected
`(path, error)` pairs joined by newlines — the totals are discarded. -/
def format_directory (fmt : String → Except String String) (path : String) (e : FsEntry)
    (st : St) : St × Except String (Nat × Nat) :=
  match e with
  | .dir _ es =>
    match fd_loop fmt path es st with
    | (st', .error err) => (st', .error err)
    | (st', .ok (o, f, errs)) =>
      if errs.isEmpty then (st', .ok (o, f)) else (st', .error (renderErrors errs))
  | .linkDir _ es =>
    match fd_loop fmt path es st with
    | (st', .error err) => (st', .error err)
    | (st', .ok (o, f, errs)) =>
      if errs.isEmpty then (st', .ok (o, f)) else (st', .error (renderErrors errs))
  | .file _ _ => (st, .error "Not a directory (os error 20)")
  | .linkFile _ _ => (st, .error "Not a directory (os error 20)")
  | .linkBroken _ => (st, .error "No such file or directory (os error 2)")

/-- The entry loop of `format_directory` over the listing of `path`. For an
eligible entry (`.rs` extension and file or symlink type) run `format_file`,
adding its lengths to the totals on success and appending `(entry_path,
error)` to the failures on failure — the loop continues either way. For a
directory or any other symlink, recurse with `format_directory`; a failure
of the recursive call aborts the loop immediately (the `?` operator).
Everything else is ignored. Returns the totals accumulated in this loop
together with the failures collected at this level. -/
def fd_loop (fmt : String → Except String String) (path : String) (es : List FsEntry)
    (st : St) : St × Except String (Nat × Nat × List (String × String)) :=
  match es with
  | [] => (st, .ok (0, 0, []))
  | e :: rest =>
    if extension e.entryName == some "rs" && (e.isFileT || e.isSymlinkT) then
      match format_file fmt (path ++ "/" ++ e.entryName) e st with
      | (st', .ok (o, f)) =>
        match fd_loop fmt path rest st' with
        | (st'', .ok (o', f', errs)) => (st'', .ok (o + o', f + f', errs))
        | (st'', .error err) => (st'', .error err)
      | (st', .error err) =>
        match fd_loop fmt path rest st' with
        | (st'', .ok (o', f', errs)) =>
          (st'', .ok (o', f', (path ++ "/" ++ e.entryName, err) :: errs))
        | (st'', .error err') => (st'', .error err')
    else if e.isDirT || e.isSymlinkT then
      match format_directory fmt (path ++ "/" ++ e.entryName) e st with
      | (st', .error err) => (st', .error err)
      | (st', .ok (o, f)) =>
        match fd_loop fmt path rest st' with
        | (st'', .ok (o', f', errs)) => (st'', .ok (o + o', f + f', errs))
        | (st'', .error err) => (st'', .error err)
    else
      fd_loop fmt path rest st

end

/-- Model of `PrettyThanks::run`: classify the root path. A root with the
`rs` extension that resolves to a file or is a symlink is formatted as a
single file; otherwise a root resolving to a directory is walked; any other
root (including a nonexistent one, `root = none`) fails with an error naming
the path, without touching the filesystem. -/
def run (fmt : String → Except String String) (rootPath : String)
    (root : Option FsEntry) (st : St) : St × Except String Unit :=
  match root with
  | some e =>
    if pathExtension rootPath == some "rs" && (e.resolvesToFile || e.isSymlinkT) then
      match format_file fmt rootPath e st with
      | (st', .ok _) => (st', .ok ())
      | (st', .error err) => (st', .error err)
    else if e.resolvesToDir then
      match format_directory fmt rootPath e st with
      | (st', .ok _) => (st', .ok ())
      | (st', .error err) => (st', .error err)
    else
      (st, .error ("path " ++ rootPath ++ " is not a file, symlink or directory"))
  | none => (st, .error ("path " ++ rootPath ++ " is not a file, symlink or directory"))

/-- `Path::is_file()` at the root, where the root path may not exist at all
(`none`). -/
def rootIsFile : Option FsEntry → Bool
  | some e => e.resolvesToFile
  | none => false

/-- `Path::is_symlink()` at the root. -/
def rootIsSymlink : Option FsEntry → Bool
  | some e => e.isSymlinkT
  | none => false

/-- `Path::is_dir()` at the root. -/
def rootIsDir : Option FsEntry → Bool
  | some e => e.resolvesToDir
  | none => false

/-- Classification of what the read and reformat steps of `format_file` give
on inode `i`: the original and canonical text when both succeed (the write
step runs exactly in this case), or the failing step's io/syntax error. -/
inductive FileOutcome where
  | canon (s t : String)
  | readErr (err : String)
  | parseErr (err : String)
deriving DecidableEq

/-- The read-and-reformat outcome for inode `i` against a given state. -/
def outcome (fmt : String → Except String String) (st : St) (i : Nat) : FileOutcome :=
  match st.store i with
  | .binary err => .readErr err
  | .text s =>
    match fmt s with
    | .error err => .parseErr err
    | .ok t => .canon s t

/-- A regular file entry from a (name, inode) pair. -/
def mkRsFile (q : String × Nat) : FsEntry :=
  .file q.1 q.2

/-- The inode a `format_file` call on this entry would write to, when its
read step can succeed: used to bound the write events of a walk. -/
def readIds (e : FsEntry) : List Nat :=
  match entryReadable e with
  | .ok i => [i]
  | .error _ => []

mutual

/-- The inodes of the eligible files in a tree, in traversal order: an
`rs`-named file or symlink-to-file contributes its inode, a directory (and a
non-`rs`-named symlink to a directory) contributes the inodes of its
listing, everything else contributes nothing. -/
def treeIds : FsEntry → List Nat
  | .file nm i => if extension nm == some "rs" then [i] else []
  | .linkFile nm i => if extension nm == some "rs" then [i] else []
  | .dir _ es => listIds es
  | .linkDir nm es => if extension nm == some "rs" then [] else listIds es
  | .linkBroken _ => []

/-- `treeIds` over a directory listing. -/
def listIds : List FsEntry → List Nat
  | [] => []
  | e :: rest => treeIds e ++ listIds rest

end

/-- The eligible-file inodes reachable when an entry is recursed into as a
directory, ignoring the entry's own name. -/
def dirIds : FsEntry → List Nat
  | .dir _ es => listIds es
  | .linkDir _ es => listIds es
  | _ => []

mutual

/-- The subtree contains no eligible entry and every symbolic link in it
resolves to a directory: regular files lack the `rs` extension, there are no
symlinks to files and no dangling symlinks, symlinks to directories are not
`rs`-named, and listings satisfy the same recursively. -/
def cleanEntry : FsEntry → Bool
  | .file nm _ => !(extension nm == some "rs")
  | .dir _ es => cleanList es
  | .linkDir nm es => !(extension nm == some "rs") && cleanList es
  | .linkFile _ _ => false
  | .linkBroken _ => false

/-- `cleanEntry` over a directory listing. -/
def cleanList : List FsEntry → Bool
  | [] => true
  | e :: rest => cleanEntry e && cleanList rest

end

/-- A reformatter that accepts everything as already canonical. -/
def idFmt : String → Except String String :=
  fun s => .ok s

/-- Concrete scenario (spec section 8.7): canonical content of `a.rs`,
50 bytes. -/
def scnACanon : String :=
  String.mk (List.replicate 50 'a')

/-- Concrete scenario: non-canonical content of `b.rs`, 80 bytes. -/
def scnBOrig : String :=
  String.mk (List.replicate 80 'b')

/-- Concrete scenario: canonical form of `b.rs`, 60 bytes. -/
def scnBCanon : String :=
  String.mk (List.replicate 60 'c')

/-- Concrete scenario: syntactically invalid content of `sub/c.rs`. -/
def scnCBad : String :=
  "fn"

/-- Concrete scenario reformatter: rejects `scnCBad`, reformats `scnBOrig`
to `scnBCanon`, and accepts everything else as already canonical. -/
def scnFmt : String → Except String String :=
  fun s =>
    if s = scnCBad then .error "expected item"
    else if s = scnBOrig then .ok scnBCanon
    else .ok s

/-- Concrete scenario initial store: inode 0 = `a.rs`, 1 = `b.rs`,
2 = `sub/c.rs`, every other inode holds non-UTF-8 bytes. -/
def scnSt : St :=
  ⟨fun j =>
    if j = 0 then .text scnACanon
    else if j = 1 then .text scnBOrig
    else if j = 2 then .text scnCBad
    else .binary "stream did not contain valid UTF-8", []⟩

/-- Concrete scenario entry `a.rs`. -/
def scnA : FsEntry :=
  .file "a.rs" 0

/-- Concrete scenario entry `b.rs`. -/
def scnB : FsEntry :=
  .file "b.rs" 1

/-- Concrete scenario entry `sub` (containing `c.rs`). -/
def scnSub : FsEntry :=
  .dir "sub" [.file "c.rs" 2]

/-- The three top-level entries of the concrete scenario, indexed so that an
enumeration order is a permutation of `[0, 1, 2]`. -/
def scnEntry : Fin 3 → FsEntry :=
  fun i => match i with
  | 0 => scnA
  | 1 => scnB
  | 2 => scnSub

/-- Aliasing scenario: original (non-canonical) content, 80 bytes. -/
def aliasOrig : String :=
  String.mk (List.replicate 80 'x')

/-- Aliasing scenario: canonical content, 60 bytes. -/
def aliasCanon : String :=
  String.mk (List.replicate 60 'y')

/-- Aliasing scenario reformatter: maps the original to the canonical form
and accepts everything else as canonical. -/
def aliasFmt : String → Except String String :=
  fun s => if s = aliasOrig then .ok aliasCanon else .ok s

/-- Aliasing scenario store: every inode holds the original content. -/
def aliasSt : St :=
  ⟨fun _ => .text aliasOrig, []⟩

/-- Aliasing scenario tree: `D/d/f.rs` is a regular file on inode 7 and
`D/s` is a symbolic link resolving to the directory `D/d`, so `D/s/f.rs`
aliases the same inode. -/
def aliasTree : FsEntry :=
  .dir "D" [.dir "d" [.file "f.rs" 7], .linkDir "s" [.file "f.rs" 7]]

/-- Symlink-to-file scenario store. -/
def slfSt : St :=
  ⟨fun _ => .text "just data", []⟩

/-- Symlink-to-file scenario tree: a directory containing an extension-less
regular file and an extension-less symbolic link to it — no eligible file
anywhere in the subtree. -/
def slfTree : FsEntry :=
  .dir "D" [.file "data" 5, .linkFile "datalink" 5]

/-- A read-error message can never coincide with a parse-error message, for
any paths and causes: the two fixed prefixes already differ. -/
theorem read_msg_ne_parse_msg (p1 e1 p2 e2 : String) :
    "failed to read file " ++ p1 ++ ": " ++ e1 ≠
      "failed to parse file " ++ p2 ++ ": " ++ e2 := by
  intro h
  have h2 := congrArg (fun s => s.data.take 11) h
  simp only [String.data_append, List.append_assoc] at h2
  rw [List.take_append_of_le_length (by decide),
    List.take_append_of_le_length (by decide)] at h2
  exact absurd h2 (by decide)

/-- The outcome of the read and reformat steps depends only on the content
of the inode involved. -/
theorem outcome_congr (fmt : String → Except String String) {st1 st2 : St} {i : Nat}
    (h : st1.store i = st2.store i) : outcome fmt st1 i = outcome fmt st2 i := by
  unfold outcome
  rw [h]

/-- Characterization of `format_file` on a readable entry, by the outcome of
its read and reformat steps: failures return the state untouched with the
corresponding message, success writes the canonical text to the inode and
returns both byte lengths. -/
theorem format_file_spec (fmt : String → Except String String) (path : String)
    (e : FsEntry) (i : Nat) (st : St) (hread : entryReadable e = .ok i) :
    format_file fmt path e st =
      match outcome fmt st i with
      | .readErr err => (st, .error ("failed to read file " ++ path ++ ": " ++ err))
      | .parseErr err => (st, .error ("failed to parse file " ++ path ++ ": " ++ err))
      | .canon s t => (writeSt st i t, .ok (s.utf8ByteSize, t.utf8ByteSize)) := by
  cases hs : st.store i with
  | binary err => simp [format_file, outcome, hread, hs]
  | text s =>
    cases hf : fmt s with
    | error err => simp [format_file, outcome, hread, hs, hf]
    | ok t => simp [format_file, outcome, hread, hs, hf]

/-- C4: for an eligible file whose processing fails before the write step,
`format_file` returns a failure with the filesystem state untouched; in
particular, when the content reads successfully as text but is syntactically
invalid, the failure is the parse error carrying the path. -/
theorem c4_failure_before_write_leaves_state_untouched
    (fmt : String → Except String String) (path : String) (e : FsEntry) (i : Nat)
    (st : St) (hread : entryReadable e = .ok i)
    (hfail : ∀ s t, outcome fmt st i ≠ .canon s t) :
    (∃ m, format_file fmt path e st = (st, .error m)) ∧
    (∀ s err, st.store i = .text s → fmt s = .error err →
      format_file fmt path e st =
        (st, .error ("failed to parse file " ++ path ++ ": " ++ err))) := by
  rw [format_file_spec fmt path e i st hread]
  cases ho : outcome fmt st i with
  | canon s t => exact absurd ho (hfail s t)
  | readErr err =>
    refine ⟨⟨_, rfl⟩, ?_⟩
    intro s err2 hs hf
    have hp : outcome fmt st i = .parseErr err2 := by simp [outcome, hs, hf]
    rw [ho] at hp
    cases hp
  | parseErr err =>
    refine ⟨⟨_, rfl⟩, ?_⟩
    intro s err2 hs hf
    have hp : outcome fmt st i = .parseErr err2 := by simp [outcome, hs, hf]
    rw [ho] at hp
    cases hp
    rfl

/-- C4 witness: the invalid file of the concrete scenario, processed in
isolation, reports a parse failure naming its path and leaves the state
untouched. -/
theorem c4_witness :
    format_file scnFmt "D/sub/c.rs" (.file "c.rs" 2) scnSt =
      (scnSt, .error ("failed to parse file " ++ "D/sub/c.rs" ++ ": " ++ "expected item")) := by
  have ho : outcome scnFmt scnSt 2 = .parseErr "expected item" := by decide
  have h := c4_failure_before_write_leaves_state_untouched scnFmt "D/sub/c.rs"
    (.file "c.rs" 2) 2 scnSt (by decide)
    (by intro s t hc; rw [ho] at hc; cases hc)
  exact h.2 scnCBad "expected item" (by decide) (by decide)

/-- C6: an eligible file whose content is a fixed point of the reformatter
is processed successfully, the returned original and formatted lengths
coincide, and the on-disk content of every inode is unchanged byte for byte
(the file is rewritten with identical content). -/
theorem c6_canonical_file_noop (fmt : String → Except String String) (path : String)
    (e : FsEntry) (i : Nat) (s : String) (st : St)
    (hread : entryReadable e = .ok i)
    (hstore : st.store i = .text s)
    (hfix : fmt s = .ok s) :
    (format_file fmt path e st).2 = .ok (s.utf8ByteSize, s.utf8ByteSize) ∧
    ∀ j, (format_file fmt path e st).1.store j = st.store j := by
  have ho : outcome fmt st i = .canon s s := by simp [outcome, hstore, hfix]
  rw [format_file_spec fmt path e i st hread, ho]
  refine ⟨rfl, ?_⟩
  intro j
  by_cases hj : j = i
  · subst hj
    simp [writeSt, hstore]
  · simp [writeSt, hj]

/-- C6 witness: the already-canonical `a.rs` of the concrete scenario
reports equal lengths (50, 50) and leaves its content untouched. -/
theorem c6_witness :
    (format_file scnFmt "D/a.rs" scnA scnSt).2 = .ok (50, 50) ∧
    (format_file scnFmt "D/a.rs" scnA scnSt).1.store 0 = scnSt.store 0 := by
  have h := c6_canonical_file_noop scnFmt "D/a.rs" scnA 0 scnACanon scnSt
    (by decide) (by decide) (by decide)
  exact ⟨by rw [h.1]; decide, h.2 0⟩

/-- C9: an eligible file whose bytes are not valid UTF-8 fails at the read
step with a read error carrying the path, the state is untouched, and the
message can never coincide with any parse-error message. -/
theorem c9_non_utf8_read_error (fmt : String → Except String String) (path : String)
    (e : FsEntry) (i : Nat) (err : String) (st : St)
    (hread : entryReadable e = .ok i)
    (hbin : st.store i = .binary err) :
    format_file fmt path e st =
      (st, .error ("failed to read file " ++ path ++ ": " ++ err)) ∧
    ∀ p2 e2, ("failed to read file " ++ path ++ ": " ++ err) ≠
      ("failed to parse file " ++ p2 ++ ": " ++ e2) := by
  have ho : outcome fmt st i = .readErr err := by simp [outcome, hbin]
  rw [format_file_spec fmt path e i st hread, ho]
  exact ⟨rfl, fun p2 e2 => read_msg_ne_parse_msg path err p2 e2⟩

/-- C9 witness: a file of non-UTF-8 bytes reports a read error naming its
path, distinct from every parse-error message, with the state untouched. -/
theorem c9_witness :
    format_file scnFmt "D/bin.rs" (.file "bin.rs" 3) scnSt =
      (scnSt, .error ("failed to read file " ++ "D/bin.rs" ++ ": " ++
        "stream did not contain valid UTF-8")) ∧
    ("failed to read file " ++ "D/bin.rs" ++ ": " ++ "stream did not contain valid UTF-8") ≠
      ("failed to parse file " ++ "D/bin.rs" ++ ": " ++ "stream did not contain valid UTF-8") := by
  have h := c9_non_utf8_read_error scnFmt "D/bin.rs" (.file "bin.rs" 3) 3
    "stream did not contain valid UTF-8" scnSt (by decide) (by decide)
  exact ⟨h.1, h.2 "D/bin.rs" "stream did not contain valid UTF-8"⟩

/-- C10: whenever `format_file` succeeds, the write is performed
unconditionally — one write event is logged and the inode holds the
reformatter's output, with no comparison against the original content (the
hypotheses allow `t = s`, the byte-identical case). -/
theorem c10_write_performed_even_when_identical (fmt : String → Except String String)
    (path : String) (e : FsEntry) (i : Nat) (s t : String) (st : St)
    (hread : entryReadable e = .ok i)
    (hstore : st.store i = .text s)
    (hok : fmt s = .ok t) :
    (format_file fmt path e st).1.writes = st.writes ++ [i] ∧
    (format_file fmt path e st).1.store i = .text t := by
  have ho : outcome fmt st i = .canon s t := by simp [outcome, hstore, hok]
  rw [format_file_spec fmt path e i st hread, ho]
  exact ⟨rfl, by simp [writeSt]⟩

/-- C10 witness: the already-canonical `a.rs` is still written (one write
event on inode 0), not skipped. -/
theorem c10_witness :
    (format_file scnFmt "D/a.rs" scnA scnSt).1.writes = [0] ∧
    (format_file scnFmt "D/a.rs" scnA scnSt).1.store 0 = .text scnACanon := by
  have h := c10_write_performed_even_when_identical scnFmt "D/a.rs" scnA 0
    scnACanon scnACanon scnSt (by decide) (by decide) (by decide)
  exact ⟨by rw [h.1]; decide, h.2⟩

/-- C8: a root that neither has the `rs` extension with file-or-symlink type
nor is a directory makes the run fail with an error naming the path, with
the filesystem state untouched (the equation holds for every state, so
nothing is read either). -/
theorem c8_invalid_root_untouched (fmt : String → Except String String)
    (rootPath : String) (root : Option FsEntry) (st : St)
    (hne : (pathExtension rootPath == some "rs" &&
      (rootIsFile root || rootIsSymlink root)) = false)
    (hnd : rootIsDir root = false) :
    run fmt rootPath root st =
      (st, .error ("path " ++ rootPath ++ " is not a file, symlink or directory")) := by
  cases root with
  | none => rfl
  | some e =>
    simp only [rootIsFile, rootIsSymlink, rootIsDir] at hne hnd
    simp [run, hne, hnd]

/-- C8 witness: a regular file without the `rs` extension is an invalid
root. -/
theorem c8_witness :
    run scnFmt "notes.txt" (some (.file "notes.txt" 0)) scnSt =
      (scnSt, .error ("path " ++ "notes.txt" ++ " is not a file, symlink or directory")) :=
  c8_invalid_root_untouched scnFmt "notes.txt" (some (.file "notes.txt" 0)) scnSt
    (by decide) (by decide)

/-- C3: whenever the entry loop of a directory invocation completes with a
non-empty failures collection, that invocation returns a failure whose
message is the newline-joined rendering of all collected pairs, and the
accumulated totals are discarded — the caller sees only the failure. This
holds for directories and for symlinks resolving to directories. -/
theorem c3_nonempty_failures_discard_totals (fmt : String → Except String String)
    (path nm : String) (es : List FsEntry) (st st' : St) (o f : Nat)
    (errs : List (String × String))
    (hloop : fd_loop fmt path es st = (st', .ok (o, f, errs)))
    (hne : errs ≠ []) :
    format_directory fmt path (.dir nm es) st = (st', .error (renderErrors errs)) ∧
    format_directory fmt path (.linkDir nm es) st = (st', .error (renderErrors errs)) := by
  have hE : errs.isEmpty = false := by
    cases errs with
    | nil => exact absurd rfl hne
    | cons a l => rfl
  constructor <;> simp [format_directory, hloop, hE]

/-- C3 witness: the `sub` directory of the concrete scenario, whose loop
collects exactly one failure, returns that rendered failure and no totals. -/
theorem c3_witness :
    format_directory scnFmt "D/sub" (.dir "sub" [.file "c.rs" 2]) scnSt =
      (scnSt, .error (renderErrors [("D/sub" ++ "/" ++ "c.rs",
        "failed to parse file " ++ ("D/sub" ++ "/" ++ "c.rs") ++ ": " ++ "expected item")])) := by
  have h := c3_nonempty_failures_discard_totals scnFmt "D/sub" "sub" [.file "c.rs" 2]
    scnSt scnSt 0 0
    [("D/sub" ++ "/" ++ "c.rs",
      "failed to parse file " ++ ("D/sub" ++ "/" ++ "c.rs") ++ ": " ++ "expected item")]
    (by rfl) (by simp)
  exact h.1

/-- C1 counterexample: in the concrete scenario, with the enumeration order
`sub, a.rs, b.rs`, the failure propagated out of `sub` aborts the loop of
`D` before `b.rs` is reached, so `b.rs` keeps its original 80-byte content
instead of being rewritten to 60 bytes — the claimed conclusion does not
hold regardless of enumeration order. -/
theorem c1_counterexample :
    (format_directory scnFmt "D" (.dir "D" [scnSub, scnA, scnB]) scnSt).2 =
      .error "error: D/sub/c.rs: failed to parse file D/sub/c.rs: expected item" ∧
    (format_directory scnFmt "D" (.dir "D" [scnSub, scnA, scnB]) scnSt).1.store 1 =
      .text scnBOrig ∧
    scnBOrig.utf8ByteSize = 80 ∧ scnBCanon.utf8ByteSize = 60 ∧ scnBOrig ≠ scnBCanon := by
  decide

/-- C1 (amended): in the concrete scenario, every enumeration order of `D`'s
entries yields the failure naming `sub/c.rs`, and `a.rs` and `sub/c.rs` keep
their contents; `b.rs` is rewritten to its 60-byte canonical form exactly
when it is enumerated before `sub`, and keeps its 80-byte original content
when `sub` comes first (the propagated failure aborts the remaining
enumeration). -/
theorem c1_scenario_order_characterization (order : List (Fin 3))
    (hperm : order ∈ [[0, 1, 2], [1, 0, 2], [1, 2, 0], [0, 2, 1], [2, 0, 1], [2, 1, 0]]) :
    (format_directory scnFmt "D" (.dir "D" (order.map scnEntry)) scnSt).2 =
      .error "error: D/sub/c.rs: failed to parse file D/sub/c.rs: expected item" ∧
    (format_directory scnFmt "D" (.dir "D" (order.map scnEntry)) scnSt).1.store 0 =
      .text scnACanon ∧
    (format_directory scnFmt "D" (.dir "D" (order.map scnEntry)) scnSt).1.store 2 =
      .text scnCBad ∧
    (order ∈ [[0, 1, 2], [1, 0, 2], [1, 2, 0]] →
      (format_directory scnFmt "D" (.dir "D" (order.map scnEntry)) scnSt).1.store 1 =
        .text scnBCanon) ∧
    (order ∈ [[0, 2, 1], [2, 0, 1], [2, 1, 0]] →
      (format_directory scnFmt "D" (.dir "D" (order.map scnEntry)) scnSt).1.store 1 =
        .text scnBOrig) := by
  simp only [List.mem_cons, List.not_mem_nil, or_false] at hperm
  rcases hperm with rfl | rfl | rfl | rfl | rfl | rfl <;> decide

/-- C1 witness: the order `a.rs, b.rs, sub` realizes the amended claim, with
`b.rs` rewritten to its 60-byte canonical form. -/
theorem c1_witness :
    (format_directory scnFmt "D" (.dir "D" ([0, 1, 2].map scnEntry)) scnSt).2 =
      .error "error: D/sub/c.rs: failed to parse file D/sub/c.rs: expected item" ∧
    (format_directory scnFmt "D" (.dir "D" ([0, 1, 2].map scnEntry)) scnSt).1.store 0 =
      .text scnACanon ∧
    (format_directory scnFmt "D" (.dir "D" ([0, 1, 2].map scnEntry)) scnSt).1.store 2 =
      .text scnCBad ∧
    (format_directory scnFmt "D" (.dir "D" ([0, 1, 2].map scnEntry)) scnSt).1.store 1 =
      .text scnBCanon := by
  have h := c1_scenario_order_characterization [0, 1, 2] (by decide)
  exact ⟨h.1, h.2.1, h.2.2.1, h.2.2.2.1 (by decide)⟩

mutual

/-- In a clean subtree (no eligible entries, every symlink resolving to a
directory), formatting a directory-like entry succeeds with zero totals and
leaves the state untouched. -/
theorem clean_fd (fmt : String → Except String String) (p : String) (e : FsEntry)
    (st : St) (hclean : cleanEntry e = true) (hdl : (e.isDirT || e.isSymlinkT) = true) :
    format_directory fmt p e st = (st, .ok (0, 0)) := by
  match e with
  | .dir nm es =>
    have h := clean_loop fmt p es st (by simpa [cleanEntry] using hclean)
    simp [format_directory, h]
  | .linkDir nm es =>
    have hc := hclean
    simp only [cleanEntry, Bool.and_eq_true] at hc
    have h := clean_loop fmt p es st hc.2
    simp [format_directory, h]
  | .file nm i => simp [FsEntry.isDirT, FsEntry.isSymlinkT] at hdl
  | .linkFile nm i => simp [cleanEntry] at hclean
  | .linkBroken nm => simp [cleanEntry] at hclean

/-- In a clean listing the entry loop does nothing: no writes, zero totals,
no failures. -/
theorem clean_loop (fmt : String → Except String String) (p : String)
    (es : List FsEntry) (st : St) (hclean : cleanList es = true) :
    fd_loop fmt p es st = (st, .ok (0, 0, [])) := by
  match es with
  | [] => simp [fd_loop]
  | e :: rest =>
    simp only [cleanList, Bool.and_eq_true] at hclean
    obtain ⟨h1, h2⟩ := hclean
    have hrest := clean_loop fmt p rest st h2
    match e with
    | .file nm i =>
      have hext : (extension nm == some "rs") = false := by
        simpa [cleanEntry, Bool.not_eq_true'] using h1
      simp [fd_loop, FsEntry.entryName, FsEntry.isFileT, FsEntry.isSymlinkT,
        FsEntry.isDirT, hext, hrest]
    | .dir nm es' =>
      have hfd := clean_fd fmt (p ++ "/" ++ nm) (.dir nm es') st h1 rfl
      simp [fd_loop, FsEntry.entryName, FsEntry.isFileT, FsEntry.isSymlinkT,
        FsEntry.isDirT, hfd, hrest]
    | .linkDir nm es' =>
      have h1c := h1
      simp only [cleanEntry, Bool.and_eq_true, Bool.not_eq_true'] at h1c
      have hfd := clean_fd fmt (p ++ "/" ++ nm) (.linkDir nm es') st h1 rfl
      simp [fd_loop, FsEntry.entryName, FsEntry.isFileT, FsEntry.isSymlinkT,
        FsEntry.isDirT, h1c.1, hfd, hrest]
    | .linkFile nm i => simp [cleanEntry] at h1
    | .linkBroken nm => simp [cleanEntry] at h1

end

/-- C7 counterexample: a directory containing only an extension-less regular
file and an extension-less symbolic link to that file — zero eligible files
in the subtree — still fails: the walk recurses into the symlink,
`read_dir` fails with NotADirectory, and the failure propagates. -/
theorem c7_counterexample :
    (format_directory idFmt "D" slfTree slfSt).2 =
      .error "Not a directory (os error 20)" ∧
    (format_directory idFmt "D" slfTree slfSt).1.writes = [] := by
  decide

/-- C7 (amended): a directory whose subtree contains zero eligible files and
whose symbolic links all resolve to directories succeeds with totals (0, 0),
no failures, and the state untouched — non-eligible files and
symlinks-to-directories included. -/
theorem c7_clean_tree_zero_totals (fmt : String → Except String String)
    (path nm : String) (es : List FsEntry) (st : St)
    (hclean : cleanList es = true) :
    format_directory fmt path (.dir nm es) st = (st, .ok (0, 0)) :=
  clean_fd fmt path (.dir nm es) st (by simpa [cleanEntry] using hclean) rfl

/-- C7 witness: a directory holding an extension-less file, an empty
subdirectory, and a symlink resolving to a directory of non-eligible
files. -/
theorem c7_witness :
    format_directory idFmt "D"
      (.dir "D" [.file "README" 4, .dir "empty" [], .linkDir "ld" [.file "x.txt" 5]])
      slfSt = (slfSt, .ok (0, 0)) :=
  c7_clean_tree_zero_totals idFmt "D" "D"
    [.file "README" 4, .dir "empty" [], .linkDir "ld" [.file "x.txt" 5]] slfSt (by decide)

/-- The write events of one `format_file` call extend the log by a sublist
of the singleton inode its read step resolves to: one write on success, none
on failure. -/
theorem format_file_writes (fmt : String → Except String String) (p : String)
    (e : FsEntry) (st : St) :
    ∃ w, (format_file fmt p e st).1.writes = st.writes ++ w ∧ w.Sublist (readIds e) := by
  cases hr : entryReadable e with
  | error err => exact ⟨[], by simp [format_file, hr], by simp⟩
  | ok i =>
    rw [format_file_spec fmt p e i st hr]
    cases ho : outcome fmt st i with
    | readErr err => exact ⟨[], by simp, by simp⟩
    | parseErr err => exact ⟨[], by simp, by simp⟩
    | canon s t => exact ⟨[i], by simp [writeSt], by simp [readIds, hr]⟩

/-- For an entry passing the eligibility test of the loop, the inode its
`format_file` call may write is exactly its contribution to `treeIds`. -/
theorem eligible_readIds (e : FsEntry)
    (h : (extension e.entryName == some "rs" && (e.isFileT || e.isSymlinkT)) = true) :
    readIds e = treeIds e := by
  cases e with
  | file nm i =>
    simp only [FsEntry.entryName, Bool.and_eq_true] at h
    simp [readIds, entryReadable, treeIds, h.1]
  | linkFile nm i =>
    simp only [FsEntry.entryName, Bool.and_eq_true] at h
    simp [readIds, entryReadable, treeIds, h.1]
  | dir nm es => simp [FsEntry.isFileT, FsEntry.isSymlinkT] at h
  | linkDir nm es =>
    simp only [FsEntry.entryName, Bool.and_eq_true] at h
    simp [readIds, entryReadable, treeIds, h.1]
  | linkBroken nm => simp [readIds, entryReadable, treeIds]

/-- For an entry failing the eligibility test, the inodes reachable by
recursing into it as a directory bound its contribution to `treeIds`. -/
theorem dirIds_sub_treeIds (e : FsEntry)
    (h : (extension e.entryName == some "rs" && (e.isFileT || e.isSymlinkT)) = false) :
    (dirIds e).Sublist (treeIds e) := by
  cases e with
  | file nm i => simp [dirIds]
  | linkFile nm i => simp [dirIds]
  | dir nm es => simp [dirIds, treeIds]
  | linkDir nm es =>
    simp only [FsEntry.entryName, FsEntry.isFileT, FsEntry.isSymlinkT,
      Bool.or_true, Bool.and_true] at h
    simp [dirIds, treeIds, h]
  | linkBroken nm => simp [dirIds]

/-- `format_directory` on a directory or a symlink to a directory returns
the loop's final state whatever the verdict. -/
theorem format_directory_fst_dir (fmt : String → Except String String)
    (p nm : String) (es : List FsEntry) (st : St) :
    (format_directory fmt p (.dir nm es) st).1 = (fd_loop fmt p es st).1 ∧
    (format_directory fmt p (.linkDir nm es) st).1 = (fd_loop fmt p es st).1 := by
  rcases hl : fd_loop fmt p es st with ⟨st', r⟩
  rcases r with err | ⟨o, f, errs⟩
  · simp [format_directory, hl]
  · by_cases he : errs.isEmpty <;> simp [format_directory, hl, he]

mutual

/-- The write events of a `format_directory` call extend the log by a
sublist of the eligible-file inodes reachable through the entry: the walk
never writes an inode it cannot reach, and never writes a reachable inode
more often than it occurs. -/
theorem fd_writes_sublist (fmt : String → Except String String) (p : String)
    (e : FsEntry) (st : St) :
    ∃ w, (format_directory fmt p e st).1.writes = st.writes ++ w ∧
      w.Sublist (dirIds e) := by
  match e with
  | .dir nm es =>
    obtain ⟨w, hw, hs⟩ := loop_writes_sublist fmt p es st
    exact ⟨w, by rw [(format_directory_fst_dir fmt p nm es st).1, hw],
      by simpa [dirIds] using hs⟩
  | .linkDir nm es =>
    obtain ⟨w, hw, hs⟩ := loop_writes_sublist fmt p es st
    exact ⟨w, by rw [(format_directory_fst_dir fmt p nm es st).2, hw],
      by simpa [dirIds] using hs⟩
  | .file nm i => exact ⟨[], by simp [format_directory], by simp⟩
  | .linkFile nm i => exact ⟨[], by simp [format_directory], by simp⟩
  | .linkBroken nm => exact ⟨[], by simp [format_directory], by simp⟩

/-- The write events of one run of the entry loop extend the log by a
sublist of the eligible-file inodes of the listing, in order. -/
theorem loop_writes_sublist (fmt : String → Except String String) (p : String)
    (es : List FsEntry) (st : St) :
    ∃ w, (fd_loop fmt p es st).1.writes = st.writes ++ w ∧ w.Sublist (listIds es) := by
  match es with
  | [] => exact ⟨[], by simp [fd_loop], by simp⟩
  | e :: rest =>
    cases hc1 : (extension e.entryName == some "rs" && (e.isFileT || e.isSymlinkT)) with
    | true =>
      obtain ⟨w1, hw1, hs1⟩ := format_file_writes fmt (p ++ "/" ++ e.entryName) e st
      rcases hf : format_file fmt (p ++ "/" ++ e.entryName) e st with ⟨st1, r1⟩
      rw [hf] at hw1
      have hw1' : st1.writes = st.writes ++ w1 := hw1
      obtain ⟨w2, hw2, hs2⟩ := loop_writes_sublist fmt p rest st1
      rcases hl : fd_loop fmt p rest st1 with ⟨st2, r2⟩
      rw [hl] at hw2
      have hw2' : st2.writes = st1.writes ++ w2 := hw2
      have hsub : (w1 ++ w2).Sublist (treeIds e ++ listIds rest) :=
        List.Sublist.append (by rw [← eligible_readIds e hc1]; exact hs1) hs2
      refine ⟨w1 ++ w2, ?_, by simpa [listIds] using hsub⟩
      cases r1 with
      | ok v =>
        rcases v with ⟨o, f⟩
        cases r2 with
        | ok v2 =>
          rcases v2 with ⟨o2, f2, errs2⟩
          simp [fd_loop, hc1, hf, hl, hw1', hw2', List.append_assoc]
        | error err2 => simp [fd_loop, hc1, hf, hl, hw1', hw2', List.append_assoc]
      | error err1 =>
        cases r2 with
        | ok v2 =>
          rcases v2 with ⟨o2, f2, errs2⟩
          simp [fd_loop, hc1, hf, hl, hw1', hw2', List.append_assoc]
        | error err2 => simp [fd_loop, hc1, hf, hl, hw1', hw2', List.append_assoc]
    | false =>
      cases hc2 : (e.isDirT || e.isSymlinkT) with
      | true =>
        obtain ⟨w1, hw1, hs1⟩ := fd_writes_sublist fmt (p ++ "/" ++ e.entryName) e st
        rcases hf : format_directory fmt (p ++ "/" ++ e.entryName) e st with ⟨st1, r1⟩
        rw [hf] at hw1
        have hw1' : st1.writes = st.writes ++ w1 := hw1
        have hs1' : w1.Sublist (treeIds e) := hs1.trans (dirIds_sub_treeIds e hc1)
        cases r1 with
        | error err1 =>
          refine ⟨w1, by simp [fd_loop, hc1, hc2, hf, hw1'], ?_⟩
          simpa [listIds] using hs1'.trans (List.sublist_append_left _ _)
        | ok v =>
          rcases v with ⟨o, f⟩
          obtain ⟨w2, hw2, hs2⟩ := loop_writes_sublist fmt p rest st1
          rcases hl : fd_loop fmt p rest st1 with ⟨st2, r2⟩
          rw [hl] at hw2
          have hw2' : st2.writes = st1.writes ++ w2 := hw2
          refine ⟨w1 ++ w2, ?_, by simpa [listIds] using List.Sublist.append hs1' hs2⟩
          cases r2 with
          | ok v2 =>
            rcases v2 with ⟨o2, f2, errs2⟩
            simp [fd_loop, hc1, hc2, hf, hl, hw1', hw2', List.append_assoc]
          | error err2 => simp [fd_loop, hc1, hc2, hf, hl, hw1', hw2', List.append_assoc]
      | false =>
        obtain ⟨w2, hw2, hs2⟩ := loop_writes_sublist fmt p rest st
        refine ⟨w2, by simp [fd_loop, hc1, hc2, hw2], ?_⟩
        simpa [listIds] using hs2.trans (List.sublist_append_right _ _)

end

/-- C5 counterexample: `D/s` is a symbolic link to the directory `D/d`, so
`D/d/f.rs` and `D/s/f.rs` alias inode 7: one run writes inode 7 twice (the
file is reformatted twice, not at most once) and double-counts it in the
byte totals. -/
theorem c5_counterexample :
    (format_directory aliasFmt "D" aliasTree aliasSt).1.writes = [7, 7] ∧
    ((format_directory aliasFmt "D" aliasTree aliasSt).1.writes.count 7 = 2) ∧
    (format_directory aliasFmt "D" aliasTree aliasSt).2 = .ok (140, 120) := by
  decide

/-- C5 (amended): in a tree whose eligible files lie on pairwise distinct
inodes (no symbolic-link aliasing back into reachable directories), a run
starting with an empty write log writes every inode at most once — every
file is reformatted at most once per run. -/
theorem c5_no_alias_formats_at_most_once (fmt : String → Except String String)
    (p nm : String) (es : List FsEntry) (st : St)
    (hnodup : (listIds es).Nodup) (hstart : st.writes = []) :
    ∀ i, (format_directory fmt p (.dir nm es) st).1.writes.count i ≤ 1 := by
  obtain ⟨w, hw, hs⟩ := fd_writes_sublist fmt p (.dir nm es) st
  intro i
  rw [hw, hstart, List.nil_append]
  have hs' : w.Sublist (listIds es) := by simpa [dirIds] using hs
  exact List.nodup_iff_count_le_one.mp (hnodup.sublist hs') i

/-- C5 witness: the concrete scenario tree has pairwise distinct inodes, so
`b.rs` (inode 1) is written at most once. -/
theorem c5_witness :
    (format_directory scnFmt "D" (.dir "D" [scnA, scnB, scnSub]) scnSt).1.writes.count 1 ≤ 1 :=
  c5_no_alias_formats_at_most_once scnFmt "D" "D" [scnA, scnB, scnSub] scnSt
    (by decide) (by decide) 1

/-- Rendering a single collected failure. -/
theorem renderErrors_single (a b : String) :
    renderErrors [(a, b)] = "error: " ++ a ++ ": " ++ b := rfl

/-- The entry loop over a listing of `rs`-named regular files on pairwise
distinct inodes, all of whose contents reformat successfully: it completes
with no failures, writes every file's canonical form to its inode, and
leaves every other inode untouched. -/
theorem fd_loop_goods (fmt : String → Except String String) (p : String)
    (files : List (String × Nat)) (st : St)
    (hext : ∀ q ∈ files, (extension q.1 == some "rs") = true)
    (hnd : (files.map Prod.snd).Nodup)
    (hgood : ∀ q ∈ files, ∃ s t, outcome fmt st q.2 = .canon s t) :
    ∃ o f st2,
      fd_loop fmt p (files.map mkRsFile) st = (st2, .ok (o, f, [])) ∧
      (∀ q ∈ files, ∀ s t, outcome fmt st q.2 = .canon s t → st2.store q.2 = .text t) ∧
      (∀ j, (∀ q ∈ files, j ≠ q.2) → st2.store j = st.store j) ∧
      st2.writes = st.writes ++ files.map Prod.snd := by
  induction files generalizing st with
  | nil => exact ⟨0, 0, st, by simp [fd_loop], by simp, by simp, by simp⟩
  | cons q rest ih =>
    obtain ⟨s, t, hq⟩ := hgood q (by simp)
    have hcond : (extension (mkRsFile q).entryName == some "rs" &&
        ((mkRsFile q).isFileT || (mkRsFile q).isSymlinkT)) = true := by
      simp [mkRsFile, FsEntry.entryName, FsEntry.isFileT, hext q (by simp)]
    have hff := format_file_spec fmt (p ++ "/" ++ (mkRsFile q).entryName) (mkRsFile q)
      q.2 st (by simp [mkRsFile, entryReadable])
    rw [hq] at hff
    have hnd0 : q.2 ∉ rest.map Prod.snd ∧ (rest.map Prod.snd).Nodup := by
      rw [List.map_cons, List.nodup_cons] at hnd
      exact hnd
    have hne : ∀ q' ∈ rest, q'.2 ≠ q.2 := by
      intro q' hq' heq
      exact hnd0.1 (heq ▸ List.mem_map_of_mem Prod.snd hq')
    have hstq : ∀ q' ∈ rest, (writeSt st q.2 t).store q'.2 = st.store q'.2 := by
      intro q' hq'
      simp [writeSt, hne q' hq']
    have hout : ∀ q' ∈ rest, outcome fmt (writeSt st q.2 t) q'.2 = outcome fmt st q'.2 :=
      fun q' hq' => outcome_congr fmt (hstq q' hq')
    obtain ⟨o2, f2, st2, hloop, hcanon, hframe, hwr⟩ := ih (writeSt st q.2 t)
      (fun q' hq' => hext q' (by simp [hq']))
      hnd0.2
      (fun q' hq' => by rw [hout q' hq']; exact hgood q' (by simp [hq']))
    refine ⟨s.utf8ByteSize + o2, t.utf8ByteSize + f2, st2, ?_, ?_, ?_, ?_⟩
    · simp only [List.map_cons]
      simp [fd_loop, hcond, hff, hloop]
    · intro q' hq' s' t' hout'
      rcases List.mem_cons.mp hq' with rfl | hq'r
      · rw [hq] at hout'
        cases hout'
        have hfr := hframe q'.2 (fun q'' hq'' heq => hne q'' hq'' heq.symm)
        rw [hfr]
        simp [writeSt]
      · exact hcanon q' hq'r s' t' (by rw [hout q' hq'r]; exact hout')
    · intro j hj
      rw [hframe j (fun q' hq' => hj q' (by simp [hq']))]
      simp [writeSt, hj q (by simp)]
    · rw [hwr]
      simp [writeSt, List.append_assoc]

/-- The entry loop over a listing of `rs`-named regular files on pairwise
distinct inodes, exactly one of which (at an arbitrary position) has
syntactically invalid content while all others reformat successfully: the
loop completes having collected exactly the one parse failure, every valid
file's canonical form is written to its inode, and every inode outside the
listing is untouched. -/
theorem fd_loop_one_bad (fmt : String → Except String String) (p : String)
    (pre post : List (String × Nat)) (bad : String × Nat) (st : St) (err : String)
    (hext : ∀ q ∈ pre ++ bad :: post, (extension q.1 == some "rs") = true)
    (hnd : ((pre ++ bad :: post).map Prod.snd).Nodup)
    (hgood : ∀ q ∈ pre ++ post, ∃ s t, outcome fmt st q.2 = .canon s t)
    (hbad : outcome fmt st bad.2 = .parseErr err) :
    ∃ o f st2,
      fd_loop fmt p ((pre ++ bad :: post).map mkRsFile) st =
        (st2, .ok (o, f, [(p ++ "/" ++ bad.1,
          "failed to parse file " ++ (p ++ "/" ++ bad.1) ++ ": " ++ err)])) ∧
      (∀ q ∈ pre ++ post, ∀ s t, outcome fmt st q.2 = .canon s t → st2.store q.2 = .text t) ∧
      (∀ j, (∀ q ∈ pre ++ bad :: post, j ≠ q.2) → st2.store j = st.store j) := by
  induction pre generalizing st with
  | nil =>
    have hcond : (extension (mkRsFile bad).entryName == some "rs" &&
        ((mkRsFile bad).isFileT || (mkRsFile bad).isSymlinkT)) = true := by
      simp [mkRsFile, FsEntry.entryName, FsEntry.isFileT, hext bad (by simp)]
    have hff := format_file_spec fmt (p ++ "/" ++ (mkRsFile bad).entryName) (mkRsFile bad)
      bad.2 st (by simp [mkRsFile, entryReadable])
    rw [hbad] at hff
    have hndp : (post.map Prod.snd).Nodup := by
      rw [List.nil_append, List.map_cons, List.nodup_cons] at hnd
      exact hnd.2
    obtain ⟨o2, f2, st2, hloop, hcanon, hframe, hwr⟩ := fd_loop_goods fmt p post st
      (fun q' hq' => hext q' (by simp [hq']))
      hndp
      (fun q' hq' => hgood q' (by simpa using hq'))
    refine ⟨o2, f2, st2, ?_, ?_, ?_⟩
    · simp only [List.nil_append, List.map_cons]
      simp [fd_loop, hcond, hff, hloop]
      simp [mkRsFile, FsEntry.entryName]
    · intro q' hq' s' t' hout'
      exact hcanon q' (by simpa using hq') s' t' hout'
    · intro j hj
      exact hframe j (fun q' hq' => hj q' (by simp [hq']))
  | cons q pre' ih =>
    obtain ⟨s, t, hq⟩ := hgood q (by simp)
    have hcond : (extension (mkRsFile q).entryName == some "rs" &&
        ((mkRsFile q).isFileT || (mkRsFile q).isSymlinkT)) = true := by
      simp [mkRsFile, FsEntry.entryName, FsEntry.isFileT, hext q (by simp)]
    have hff := format_file_spec fmt (p ++ "/" ++ (mkRsFile q).entryName) (mkRsFile q)
      q.2 st (by simp [mkRsFile, entryReadable])
    rw [hq] at hff
    have hnd0 : q.2 ∉ (pre' ++ bad :: post).map Prod.snd ∧
        ((pre' ++ bad :: post).map Prod.snd).Nodup := by
      rw [List.cons_append, List.map_cons, List.nodup_cons] at hnd
      exact hnd
    have hne : ∀ q' ∈ pre' ++ bad :: post, q'.2 ≠ q.2 := by
      intro q' hq' heq
      exact hnd0.1 (heq ▸ List.mem_map_of_mem Prod.snd hq')
    have hmem : ∀ q' ∈ pre' ++ post, q' ∈ pre' ++ bad :: post := by
      intro q' hq'
      rcases List.mem_append.mp hq' with h | h
      · exact List.mem_append.mpr (Or.inl h)
      · exact List.mem_append.mpr (Or.inr (List.mem_cons_of_mem bad h))
    have hstq : ∀ q' ∈ pre' ++ bad :: post, (writeSt st q.2 t).store q'.2 = st.store q'.2 := by
      intro q' hq'
      simp [writeSt, hne q' hq']
    obtain ⟨o2, f2, st2, hloop, hcanon, hframe⟩ := ih (writeSt st q.2 t)
      (fun q' hq' => hext q' (by simp [hq']))
      hnd0.2
      (fun q' hq' => by
        rw [outcome_congr fmt (hstq q' (hmem q' hq'))]
        exact hgood q' (by simp [hq']))
      (by
        rw [outcome_congr fmt (hstq bad (by simp))]
        exact hbad)
    refine ⟨s.utf8ByteSize + o2, t.utf8ByteSize + f2, st2, ?_, ?_, ?_⟩
    · simp only [List.map_append, List.map_cons] at hloop
      simp only [List.cons_append, List.map_cons]
      simp [fd_loop, hcond, hff, hloop, List.map_append]
    · intro q' hq' s' t' hout'
      rcases List.mem_cons.mp (by simpa using hq' :
          q' ∈ q :: (pre' ++ post)) with rfl | hq'r
      · rw [hq] at hout'
        cases hout'
        have hfr := hframe q'.2 (fun q'' hq'' heq => hne q'' hq'' heq.symm)
        rw [hfr]
        simp [writeSt]
      · exact hcanon q' hq'r s' t' (by
          rw [outcome_congr fmt (hstq q' (hmem q' hq'r))]
          exact hout')
    · intro j hj
      rw [hframe j (fun q' hq' => hj q' (by simp [hq']))]
      simp [writeSt, hj q (by simp)]

/-- C2: a directory whose immediate entries are `rs`-named regular files on
pairwise distinct inodes, exactly one of which (at an arbitrary position)
has syntactically invalid content while the other N reformat successfully:
all N valid files are rewritten to canonical form, and the walk's result is
a failure rendering only the invalid file's parse error. -/
theorem c2_isolation (fmt : String → Except String String) (p nm : String)
    (pre post : List (String × Nat)) (bad : String × Nat) (st : St) (err : String)
    (hext : ∀ q ∈ pre ++ bad :: post, (extension q.1 == some "rs") = true)
    (hnd : ((pre ++ bad :: post).map Prod.snd).Nodup)
    (hgood : ∀ q ∈ pre ++ post, ∃ s t, outcome fmt st q.2 = .canon s t)
    (hbad : outcome fmt st bad.2 = .parseErr err) :
    ∃ st2,
      format_directory fmt p (.dir nm ((pre ++ bad :: post).map mkRsFile)) st =
        (st2, .error ("error: " ++ (p ++ "/" ++ bad.1) ++ ": " ++
          ("failed to parse file " ++ (p ++ "/" ++ bad.1) ++ ": " ++ err))) ∧
      ∀ q ∈ pre ++ post, ∀ s t, outcome fmt st q.2 = .canon s t → st2.store q.2 = .text t := by
  obtain ⟨o, f, st2, hloop, hcanon, hframe⟩ :=
    fd_loop_one_bad fmt p pre post bad st err hext hnd hgood hbad
  refine ⟨st2, ?_, hcanon⟩
  simp only [List.map_append, List.map_cons] at hloop
  simp [format_directory, hloop, renderErrors_single]

/-- C2 witness: a directory of three files — valid `a.rs`, invalid `c.rs`,
valid `b.rs` — rewrites both valid files to canonical form and fails
rendering only `c.rs`. -/
theorem c2_witness :
    (format_directory scnFmt "D"
      (.dir "D" (([("a.rs", 0)] ++ ("c.rs", 2) :: [("b.rs", 1)]).map mkRsFile)) scnSt).2 =
      .error ("error: " ++ ("D" ++ "/" ++ "c.rs") ++ ": " ++
        ("failed to parse file " ++ ("D" ++ "/" ++ "c.rs") ++ ": " ++ "expected item")) ∧
    (format_directory scnFmt "D"
      (.dir "D" (([("a.rs", 0)] ++ ("c.rs", 2) :: [("b.rs", 1)]).map mkRsFile)) scnSt).1.store 1 =
      .text scnBCanon ∧
    (format_directory scnFmt "D"
      (.dir "D" (([("a.rs", 0)] ++ ("c.rs", 2) :: [("b.rs", 1)]).map mkRsFile)) scnSt).1.store 0 =
      .text scnACanon := by
  obtain ⟨st2, h1, h2⟩ := c2_isolation scnFmt "D" "D" [("a.rs", 0)] [("b.rs", 1)]
    ("c.rs", 2) scnSt "expected item"
    (by decide) (by decide)
    (by
      intro q hq
      simp only [List.cons_append, List.nil_append, List.mem_cons,
        List.not_mem_nil, or_false] at hq
      rcases hq with rfl | rfl
      · exact ⟨scnACanon, scnACanon, by decide⟩
      · exact ⟨scnBOrig, scnBCanon, by decide⟩)
    (by decide)
  refine ⟨by rw [h1], ?_, ?_⟩
  · rw [h1]
    exact h2 ("b.rs", 1) (by simp) scnBOrig scnBCanon (by decide)
  · rw [h1]
    exact h2 ("a.rs", 0) (by simp) scnACanon scnACanon (by decide)

end PrettyThanks
